import Mathlib

/-!
Verification development for the poocam motion-triggered video recorder
(`src/poocam.py`).  The Python source is embedded shallowly:

* numeric quantities that the source holds as Python floats (MSE scores,
  thresholds, monotonic clock readings) are modelled as rationals;
* the uint8 numpy arithmetic of the motion detector is modelled with
  explicit `% 256` wraparound, exactly as `np.subtract` / `np.square`
  behave on `uint8` arrays;
* fallible external calls (`io.open`, `camera.start_encoder`,
  `camera.stop_encoder`) are modelled by boolean success parameters, and
  a propagating Python exception is an `Except.error` carrying the state
  of the object at the moment the exception escapes;
* the concurrent muxer worker (`muxer`, lines 242-269) is modelled as a
  small-step system over explicit interleavings of producer actions
  (queue `put`, shutdown flag write) and worker loop iterations.

Logging calls have no observable effect on the modelled state and are
omitted (only the `i` debug counter of `motion_detector` depends on
them; it influences nothing else).
-/

namespace Poocam

/-- The module-level `poocam_config` dictionary (src/poocam.py lines 29-38). -/
structure PoocamConfigT where
  video_width : Nat
  video_height : Nat
  low_res_width : Nat
  low_res_height : Nat
  cut_left : ℚ
  cut_right : ℚ
  recording_timeout : ℚ
  recording_bitrate : Nat
deriving DecidableEq

/-- The value of `poocam_config` with the literal entries of the source. -/
def poocam_config : PoocamConfigT :=
  { video_width := 1280
    video_height := 720
    low_res_width := 160
    low_res_height := 120
    cut_left := 15 / 100
    cut_right := 20 / 100
    recording_timeout := 3
    recording_bitrate := 6000000 }

/-- The command-line options of `main` (src/poocam.py lines 272-279): the
only configuration inputs supplied at startup. -/
structure StartupOptions where
  temp_directory : String
  recordings_directory : String
  mse_threshold : ℚ
  screen_timeout : ℚ
  verbose : Nat
  log : Bool
deriving DecidableEq

/-- A low-resolution luminance frame: the first `w*h` bytes of the lores
capture buffer (each sample is a uint8, i.e. `< 256`). -/
abbrev Frame := List Nat

/-- Behavior of `np.subtract` on two uint8 samples: wraps modulo 256. -/
def u8sub (a b : Nat) : Nat := (a % 256 + (256 - b % 256)) % 256

/-- Behavior of `np.square` on a uint8 sample: wraps modulo 256. -/
def u8sq (d : Nat) : Nat := d * d % 256

/-- The score the source actually computes (line 226):
`np.square(np.subtract(current, previous)).mean()`, with both operands
uint8 arrays, so both the subtraction and the squaring wrap modulo 256
before the (float) mean is taken. -/
def mseCode (current previous : Frame) : ℚ :=
  (((List.zipWith (fun a b => u8sq (u8sub a b)) current previous).sum : ℚ)) /
    (current.length : ℚ)

/-- Modelled from the spec wording for ActivityScore: the exact mean of
the squared differences of the two frames' luminance values (pairwise,
over all sample positions), with no wraparound. -/
def mseSpec (current previous : Frame) : ℚ :=
  ((((List.zipWith (fun a b => ((a : ℤ) - (b : ℤ)) ^ 2) current previous).sum : ℤ) : ℚ)) /
    (current.length : ℚ)

/-- The mutable fields of `PoocamMainWindow` that the recording pipeline
touches, plus the observable trace of encoder calls.  `ptsWriter` models
`self._pts_writer` (`none` = Python `None`, `some true` = an open file,
`some false` = a closed file; `file.close()` does not reset the
attribute to `None`).  `encoderEvents` records each successful
`camera.start_encoder` call as `true` and each successful
`camera.stop_encoder` call as `false`, in order. -/
structure SysState where
  previous : Option Frame
  last_activity : ℚ
  stabilized : Bool
  recording : Bool
  current_filename : Option String
  ptsWriter : Option Bool
  overlay : Bool
  muxer_queue : List String
  encoderEvents : List Bool
deriving DecidableEq

/-- Field state at construction time (lines 56, 75, 77, 89) together with
the motion detector's local variables at loop entry (lines 217-219). -/
def initState : SysState :=
  { previous := none
    last_activity := 0
    stabilized := false
    recording := false
    current_filename := none
    ptsWriter := none
    overlay := false
    muxer_queue := []
    encoderEvents := [] }

/-- Method `start_recording` (lines 134-143).  `openOk` tells whether
`io.open` of the timecode writer succeeds, `startEncOk` whether
`camera.start_encoder` succeeds; `ts` is the timestamp-derived filename
produced by `strftime`.  The source sets `self._recording = True` and
`self.current_filename` before any fallible call; an exception leaves
exactly the assignments made so far in place (`Except.error` carries
that state). -/
def start_recording (openOk startEncOk : Bool) (ts : String) (s : SysState) :
    Except SysState SysState :=
  if openOk = false then
    Except.error { s with recording := true, current_filename := some ts }
  else if startEncOk = false then
    Except.error { s with recording := true, current_filename := some ts, ptsWriter := some true }
  else
    Except.ok { s with
      recording := true
      current_filename := some ts
      ptsWriter := some true
      encoderEvents := s.encoderEvents ++ [true]
      overlay := true }

/-- Method `stop_recording` (lines 145-152).  `stopEncOk` tells whether
`camera.stop_encoder` returns normally.  When it raises, the exception
propagates immediately: none of the following lines (writer close,
overlay off, queue put, flag reset) run, so the state escapes
unchanged.  When `self._recording` is false the whole body is skipped. -/
def stop_recording (stopEncOk : Bool) (s : SysState) : Except SysState SysState :=
  if s.recording = true then
    if stopEncOk = false then Except.error s
    else
      Except.ok { s with
        encoderEvents := s.encoderEvents ++ [false]
        ptsWriter := if s.ptsWriter.isSome then some false else s.ptsWriter
        overlay := false
        muxer_queue := s.muxer_queue ++ [s.current_filename.getD ""]
        recording := false }
  else Except.ok s

/-- Lines 227-228: `if not stabilized and mse < self.mse_threshold:
stabilized = True`.  Runs before the trigger/stop decision of the same
iteration. -/
def stabilize (opts : StartupOptions) (mse : ℚ) (s : SysState) : SysState :=
  if s.stabilized = false ∧ mse < opts.mse_threshold then { s with stabilized := true } else s

/-- The `if previous is not None:` branch of one iteration (lines
225-238), after `stabilize` has been folded in: trigger/renew when the
score strictly exceeds the threshold (starting a recording only when
none is running), otherwise stop when recording and the hardcoded
`poocam_config["recording_timeout"]` has elapsed since the last
activity; `previous = current` (line 239) runs only when no exception
escaped (`Except.map`). -/
def detector_compare (opts : StartupOptions) (openOk startEncOk stopEncOk : Bool)
    (now : ℚ) (ts : String) (frame prev : Frame) (s : SysState) :
    Except SysState SysState :=
  if (stabilize opts (mseCode frame prev) s).stabilized = true ∧
      mseCode frame prev > opts.mse_threshold then
    Except.map (fun s2 => { s2 with last_activity := now, previous := some frame })
      (if (stabilize opts (mseCode frame prev) s).recording = false then
        start_recording openOk startEncOk ts (stabilize opts (mseCode frame prev) s)
      else Except.ok (stabilize opts (mseCode frame prev) s))
  else if (stabilize opts (mseCode frame prev) s).recording = true ∧
      now - (stabilize opts (mseCode frame prev) s).last_activity >
        poocam_config.recording_timeout then
    Except.map (fun s2 => { s2 with previous := some frame })
      (stop_recording stopEncOk (stabilize opts (mseCode frame prev) s))
  else Except.ok { (stabilize opts (mseCode frame prev) s) with previous := some frame }

/-- One iteration of the `motion_detector` loop body (lines 221-239):
on the very first frame just store it, otherwise compare against the
stored previous frame.  `now` is the `time.monotonic()` reading of this
iteration and `ts` the `strftime` name a `start_recording` call would
generate.  The debug counter `i` (lines 235-238) only gates a log line
and is omitted. -/
def motion_detector_body (opts : StartupOptions) (openOk startEncOk stopEncOk : Bool)
    (now : ℚ) (ts : String) (frame : Frame) (s : SysState) : Except SysState SysState :=
  match s.previous with
  | none => Except.ok { s with previous := some frame }
  | some prev => detector_compare opts openOk startEncOk stopEncOk now ts frame prev s

/-- State reached when an `Except` resolves, whichever way. -/
def exitState : Except SysState SysState → SysState
  | Except.ok s => s
  | Except.error s => s

/-- Whether a Python exception propagated. -/
def raised : Except SysState SysState → Bool
  | Except.ok _ => false
  | Except.error _ => true

/-- One detector cycle in normal operation (all external calls
succeed; on that path `motion_detector_body` never raises). -/
def detectorStep (opts : StartupOptions) (now : ℚ) (ts : String) (frame : Frame)
    (s : SysState) : SysState :=
  exitState (motion_detector_body opts true true true now ts frame s)

/-- The `motion_detector` loop in normal operation over a finite input
trace of (clock, timestamp-name, frame) triples. -/
def runDetector (opts : StartupOptions) : List (ℚ × String × Frame) → SysState → SysState
  | [], s => s
  | (now, ts, f) :: rest, s => runDetector opts rest (detectorStep opts now ts f s)

/-- The `motion_detector` loop with fallible external calls: an
exception escaping one iteration terminates the loop (the thread dies
with the exception); remaining frames are never processed. -/
def runDetectorF (opts : StartupOptions) (openOk startEncOk stopEncOk : Bool) :
    List (ℚ × String × Frame) → SysState → Except SysState SysState
  | [], s => Except.ok s
  | (now, ts, f) :: rest, s =>
    match motion_detector_body opts openOk startEncOk stopEncOk now ts f s with
    | Except.error e => Except.error e
    | Except.ok s2 => runDetectorF opts openOk startEncOk stopEncOk rest s2

/-- Handler `closeEvent` (lines 208-214) as far as the recording pipeline is
concerned: an unconditional `stop_recording` (normal encoder stop),
then the run flag is cleared. -/
def closeEvent (s : SysState) : SysState :=
  exitState (stop_recording true s)

/-- A protocol check over the encoder call trace: starting from
open-state `b` (`true` = an encoder is open), every event must toggle
the open-state (`true` = `start_encoder`, `false` = `stop_encoder`);
returns the final open-state, or `none` on a protocol violation (a
start while open, or a stop while closed). -/
def scanOk : Bool → List Bool → Option Bool
  | b, [] => some b
  | b, e :: rest => if e = !b then scanOk e rest else none

/-- The Recording Controller invariant: the encoder call trace is a
valid alternation whose final open-state is exactly `_recording`, and
the timecode writer is open exactly while recording. -/
def ctrlInv (s : SysState) : Prop :=
  scanOk false s.encoderEvents = some s.recording ∧
  (s.ptsWriter = some true ↔ s.recording = true)

/-! ### The finalization queue and the muxer worker (lines 242-269)

The worker thread and the producers (the detector/controller thread and
the Qt `closeEvent`) share only the run flag and the queue.  We model an
execution as an arbitrary interleaving of atomic actions: a producer
`put` on the queue, the shutdown write `_run = False`, and one
iteration of the worker's `while` loop (condition check, `get` with
timeout, and per-job processing). -/

/-- Outcome environment for a worker run: the exit status `mkvmerge`
returns for each job name. -/
structure MuxEnv where
  muxExit : String → Int

/-- Observable filesystem actions the worker performs for a job:
the `mkvmerge` invocation, the two `os.remove` attempts and the
`os.rename` attempt (lines 252, 258, 262, 266). -/
inductive FsOp where
  | muxCall (j : String)
  | removeH264 (j : String)
  | removePts (j : String)
  | moveMkv (j : String)
deriving DecidableEq

/-- The per-job body of the worker loop (lines 248-268): run
`mkvmerge`; on a non-zero exit status log and `continue` (no cleanup
action at all); on success attempt both removals and the rename, each
guarded by its own `try`/`except` so every attempt is made. -/
def processJob (env : MuxEnv) (j : String) : List FsOp :=
  if env.muxExit j ≠ 0 then [FsOp.muxCall j]
  else [FsOp.muxCall j, FsOp.removeH264 j, FsOp.removePts j, FsOp.moveMkv j]

/-- One atomic action of the concurrent system around the muxer. -/
inductive MuxAction where
  | submit (j : String)
  | shutdown
  | workerStep
deriving DecidableEq

/-- Shared state of the muxer subsystem: the `_run` flag, the queue
contents, the list of jobs the worker has processed (each entry is one
finalization attempt, i.e. one `mkvmerge` invocation), the filesystem
action trace, and whether the worker loop has returned. -/
structure MuxState where
  run : Bool
  queue : List String
  finalized : List String
  fsTrace : List FsOp
  exited : Bool
deriving DecidableEq

/-- State at startup: `_run = True` (line 76), empty queue (line 77). -/
def muxInit : MuxState :=
  { run := true, queue := [], finalized := [], fsTrace := [], exited := false }

/-- Small-step semantics.  `submit` is `Queue.put` (always succeeds;
the queue is unbounded).  `shutdown` is `self._run = False`.
`workerStep` is one iteration of the worker loop: evaluate
`self._run or not self._muxer_queue.empty()`; if false, return from
`run()`; otherwise `get(timeout=1)` either times out (`filename =
None`, nothing happens) or pops the head; a popped non-empty name is
processed by the per-job body.  A step of an already-returned worker
does nothing. -/
def muxStep (env : MuxEnv) (a : MuxAction) (s : MuxState) : MuxState :=
  match a with
  | MuxAction.submit j => { s with queue := s.queue ++ [j] }
  | MuxAction.shutdown => { s with run := false }
  | MuxAction.workerStep =>
    if s.exited = true then s
    else if s.run = false ∧ s.queue = [] then { s with exited := true }
    else
      match s.queue with
      | [] => s
      | j :: tl =>
        if j ≠ "" then
          { s with queue := tl
                   finalized := s.finalized ++ [j]
                   fsTrace := s.fsTrace ++ processJob env j }
        else { s with queue := tl }

/-- Run an interleaving. -/
def runMux (env : MuxEnv) : List MuxAction → MuxState → MuxState
  | [], s => s
  | a :: rest, s => runMux env rest (muxStep env a s)

/-- Whether an action is a queue submission. -/
def isSubmit : MuxAction → Bool
  | MuxAction.submit _ => true
  | _ => false

/-- Producer ordering as the program produces it: every `put` happens
before `_run = False` (the detector thread only runs, and so only
submits, while `_run` is true, and `closeEvent` performs its final
`stop_recording` submission before clearing `_run`).  Worker steps may
fall anywhere. -/
def producerOrdered : List MuxAction → Bool
  | [] => true
  | MuxAction.shutdown :: rest => rest.all (fun a => !(isSubmit a))
  | _ :: rest => producerOrdered rest

/-- The job names submitted by an interleaving, in order. -/
def submitsOf : List MuxAction → List String
  | [] => []
  | MuxAction.submit j :: rest => j :: submitsOf rest
  | _ :: rest => submitsOf rest

/-! ### Concrete fixtures for counterexamples and witnesses -/

/-- A startup configuration with threshold 4 (the threshold is the
`--mse-threshold` option; 4 keeps counterexample arithmetic small). -/
def cexOpts : StartupOptions :=
  { temp_directory := "temp"
    recordings_directory := "recordings"
    mse_threshold := 4
    screen_timeout := 0
    verbose := 0
    log := false }

/-- A second startup configuration differing from `optsB` in every
field. -/
def optsA : StartupOptions :=
  { temp_directory := "tempA"
    recordings_directory := "recA"
    mse_threshold := 4
    screen_timeout := 2
    verbose := 0
    log := false }

/-- A startup configuration differing from `optsA` in every field. -/
def optsB : StartupOptions :=
  { temp_directory := "tempB"
    recordings_directory := "recB"
    mse_threshold := 9
    screen_timeout := 100
    verbose := 2
    log := true }

/-- A stabilized, idle detector/controller state with a stored previous
frame `[0, 0]`. -/
def stableState : SysState :=
  { initState with previous := some [0, 0], stabilized := true }

/-- A stabilized, idle state with single-sample previous frame `[0]`. -/
def stableState1 : SysState :=
  { initState with previous := some [0], stabilized := true }

/-- A state in the middle of a recording (encoder open, writer open),
as produced by a successful `start_recording` at `last_activity = 0`. -/
def recState : SysState :=
  { initState with
      previous := some [0]
      stabilized := true
      recording := true
      current_filename := some "r"
      ptsWriter := some true
      overlay := true
      encoderEvents := [true] }

/-- A mux environment in which every `mkvmerge` invocation succeeds. -/
def envOk : MuxEnv := { muxExit := fun _ => 0 }

/-- A mux environment in which every `mkvmerge` invocation fails with
exit status 1. -/
def envFail : MuxEnv := { muxExit := fun _ => 1 }

/-- A concrete producer-ordered interleaving: submit `"a"`, one worker
iteration, submit `"b"`, then shutdown. -/
def sampleSchedule : List MuxAction :=
  [MuxAction.submit "a", MuxAction.workerStep, MuxAction.submit "b", MuxAction.shutdown]

/-- A worker state mid-run with two queued jobs. -/
def muxS : MuxState :=
  { run := true, queue := ["a", "b"], finalized := [], fsTrace := [], exited := false }

/-- C1: evaluation of the two scores at the failing input. On the
single-sample frame pair previous = [0], current = [16] the source's
uint8 arithmetic wraps (16^2 = 256 ≡ 0 (mod 256)) and yields score 0,
while the exact mean squared difference demanded by the claim is 256. -/
theorem mse_uint8_wraparound_cex :
    mseCode [16] [0] = 0 ∧ mseSpec [16] [0] = 256 ∧
    mseCode [16] [0] ≠ mseSpec [16] [0] := by
  norm_num [mseCode, mseSpec, u8sub, u8sq]

/-! ### Helper lemmas: the stabilization line touches only `stabilized` -/

@[simp]
theorem stabilize_previous (opts : StartupOptions) (mse : ℚ) (s : SysState) :
    (stabilize opts mse s).previous = s.previous := by
  unfold stabilize; split <;> rfl

@[simp]
theorem stabilize_last_activity (opts : StartupOptions) (mse : ℚ) (s : SysState) :
    (stabilize opts mse s).last_activity = s.last_activity := by
  unfold stabilize; split <;> rfl

@[simp]
theorem stabilize_recording (opts : StartupOptions) (mse : ℚ) (s : SysState) :
    (stabilize opts mse s).recording = s.recording := by
  unfold stabilize; split <;> rfl

@[simp]
theorem stabilize_current_filename (opts : StartupOptions) (mse : ℚ) (s : SysState) :
    (stabilize opts mse s).current_filename = s.current_filename := by
  unfold stabilize; split <;> rfl

@[simp]
theorem stabilize_ptsWriter (opts : StartupOptions) (mse : ℚ) (s : SysState) :
    (stabilize opts mse s).ptsWriter = s.ptsWriter := by
  unfold stabilize; split <;> rfl

@[simp]
theorem stabilize_overlay (opts : StartupOptions) (mse : ℚ) (s : SysState) :
    (stabilize opts mse s).overlay = s.overlay := by
  unfold stabilize; split <;> rfl

@[simp]
theorem stabilize_muxer_queue (opts : StartupOptions) (mse : ℚ) (s : SysState) :
    (stabilize opts mse s).muxer_queue = s.muxer_queue := by
  unfold stabilize; split <;> rfl

@[simp]
theorem stabilize_encoderEvents (opts : StartupOptions) (mse : ℚ) (s : SysState) :
    (stabilize opts mse s).encoderEvents = s.encoderEvents := by
  unfold stabilize; split <;> rfl

theorem stabilize_of_stabilized (opts : StartupOptions) (mse : ℚ) (s : SysState)
    (h : s.stabilized = true) : stabilize opts mse s = s := by
  unfold stabilize
  rw [if_neg]
  rintro ⟨hf, _⟩
  rw [h] at hf
  exact Bool.noConfusion hf

theorem stabilize_stabilized_mono (opts : StartupOptions) (mse : ℚ) (s : SysState)
    (h : s.stabilized = true) : (stabilize opts mse s).stabilized = true := by
  rw [stabilize_of_stabilized opts mse s h]; exact h

/-! ### Helper lemmas: equations for `start_recording` / `stop_recording` -/

theorem start_recording_ok (ts : String) (s : SysState) :
    start_recording true true ts s =
      Except.ok { s with
        recording := true
        current_filename := some ts
        ptsWriter := some true
        encoderEvents := s.encoderEvents ++ [true]
        overlay := true } := rfl

theorem start_recording_open_fails (startEncOk : Bool) (ts : String) (s : SysState) :
    start_recording false startEncOk ts s =
      Except.error { s with recording := true, current_filename := some ts } := rfl

theorem stop_recording_err (s : SysState) (h : s.recording = true) :
    stop_recording false s = Except.error s := by
  unfold stop_recording
  rw [if_pos h, if_pos rfl]

theorem stop_recording_true_of_recording (s : SysState) (h : s.recording = true) :
    stop_recording true s =
      Except.ok { s with
        encoderEvents := s.encoderEvents ++ [false]
        ptsWriter := if s.ptsWriter.isSome then some false else s.ptsWriter
        overlay := false
        muxer_queue := s.muxer_queue ++ [s.current_filename.getD ""]
        recording := false } := by
  unfold stop_recording
  rw [if_pos h, if_neg (by decide)]

theorem stop_recording_idle_eq (stopEncOk : Bool) (s : SysState) (h : s.recording = false) :
    stop_recording stopEncOk s = Except.ok s := by
  unfold stop_recording
  rw [if_neg]
  rw [h]
  exact Bool.noConfusion

theorem stop_recording_ok_recording_false (s : SysState) :
    (exitState (stop_recording true s)).recording = false := by
  by_cases h : s.recording = true
  · rw [stop_recording_true_of_recording s h]; rfl
  · rw [stop_recording_idle_eq true s (Bool.not_eq_true s.recording ▸ h)]
    exact Bool.not_eq_true s.recording ▸ h

/-! ### Helper lemmas: the encoder call-trace protocol check -/

theorem scanOk_snoc (b e : Bool) (l : List Bool) :
    scanOk b (l ++ [e]) =
      Option.bind (scanOk b l) (fun o => if e = !o then some e else none) := by
  induction l generalizing b with
  | nil => simp [scanOk]
  | cons x xs ih =>
    by_cases hx : x = !b
    · simp only [List.cons_append, scanOk, if_pos hx]
      exact ih x
    · simp only [List.cons_append, scanOk, if_neg hx, Option.bind]

/-! ### Helper lemmas: reducing one detector iteration -/

theorem motion_detector_body_none (opts : StartupOptions) (openOk startEncOk stopEncOk : Bool)
    (now : ℚ) (ts : String) (frame : Frame) (s : SysState) (h : s.previous = none) :
    motion_detector_body opts openOk startEncOk stopEncOk now ts frame s =
      Except.ok { s with previous := some frame } := by
  unfold motion_detector_body
  rw [h]

theorem motion_detector_body_some (opts : StartupOptions) (openOk startEncOk stopEncOk : Bool)
    (now : ℚ) (ts : String) (frame prev : Frame) (s : SysState) (h : s.previous = some prev) :
    motion_detector_body opts openOk startEncOk stopEncOk now ts frame s =
      detector_compare opts openOk startEncOk stopEncOk now ts frame prev s := by
  unfold motion_detector_body
  rw [h]

/-- Under the trigger conditions (stabilized, not recording, score
strictly above threshold) one iteration is exactly a `start_recording`
call followed by the `last_activity` and `previous` updates. -/
theorem trigger_reduces (opts : StartupOptions) (openOk startEncOk stopEncOk : Bool)
    (now : ℚ) (ts : String) (frame prev : Frame) (s : SysState)
    (hprev : s.previous = some prev) (hstab : s.stabilized = true)
    (hrec : s.recording = false) (hscore : mseCode frame prev > opts.mse_threshold) :
    motion_detector_body opts openOk startEncOk stopEncOk now ts frame s =
      Except.map (fun s2 => { s2 with last_activity := now, previous := some frame })
        (start_recording openOk startEncOk ts s) := by
  rw [motion_detector_body_some opts openOk startEncOk stopEncOk now ts frame prev s hprev]
  unfold detector_compare
  rw [stabilize_of_stabilized opts (mseCode frame prev) s hstab]
  rw [if_pos ⟨hstab, hscore⟩, if_pos hrec]

/-- Under quiet conditions (score strictly below threshold) one
iteration never triggers: it either stops an ongoing recording when the
hardcoded timeout has elapsed, or changes nothing but the stored
`previous` frame (and possibly the `stabilized` flag). -/
theorem quiet_reduces (opts : StartupOptions) (openOk startEncOk stopEncOk : Bool)
    (now : ℚ) (ts : String) (frame prev : Frame) (s : SysState)
    (hprev : s.previous = some prev) (hlow : mseCode frame prev < opts.mse_threshold) :
    motion_detector_body opts openOk startEncOk stopEncOk now ts frame s =
      (if s.recording = true ∧ now - s.last_activity > poocam_config.recording_timeout then
        Except.map (fun s2 => { s2 with previous := some frame })
          (stop_recording stopEncOk (stabilize opts (mseCode frame prev) s))
      else Except.ok { (stabilize opts (mseCode frame prev) s) with previous := some frame }) := by
  rw [motion_detector_body_some opts openOk startEncOk stopEncOk now ts frame prev s hprev]
  unfold detector_compare
  rw [if_neg]
  · rw [stabilize_recording, stabilize_last_activity]
  · rintro ⟨_, hgt⟩
    exact lt_asymm hlow hgt

theorem exitState_map_previous_recording (frame : Frame) (r : Except SysState SysState) :
    (exitState (Except.map (fun s2 => { s2 with previous := some frame }) r)).recording =
      (exitState r).recording := by
  cases r <;> rfl

/-- Quiet conditions while recording: the recording stops exactly when
`now - last_activity` exceeds the hardcoded 3-second timeout. -/
theorem quiet_recording_iff (opts : StartupOptions) (now : ℚ) (ts : String)
    (frame prev : Frame) (s : SysState)
    (hprev : s.previous = some prev) (hrec : s.recording = true)
    (hlow : mseCode frame prev < opts.mse_threshold) :
    ((detectorStep opts now ts frame s).recording = false ↔
      now - s.last_activity > poocam_config.recording_timeout) := by
  unfold detectorStep
  rw [quiet_reduces opts true true true now ts frame prev s hprev hlow]
  by_cases hgt : now - s.last_activity > poocam_config.recording_timeout
  · rw [if_pos ⟨hrec, hgt⟩]
    rw [exitState_map_previous_recording]
    constructor
    · intro _; exact hgt
    · intro _
      rw [← stabilize_recording opts (mseCode frame prev) s] at hrec
      rw [stop_recording_true_of_recording _ hrec]
      rfl
  · rw [if_neg (fun hc => hgt hc.2)]
    constructor
    · intro hfalse
      rw [show (exitState (Except.ok { (stabilize opts (mseCode frame prev) s) with
            previous := some frame })).recording = s.recording from stabilize_recording _ _ _,
          hrec] at hfalse
      exact Bool.noConfusion hfalse
    · intro hc; exact absurd hc hgt

/-! ### Helper lemmas: the controller invariant is preserved -/

theorem ctrlInv_detectorStep (opts : StartupOptions) (now : ℚ) (ts : String) (frame : Frame)
    (s : SysState) (h : ctrlInv s) : ctrlInv (detectorStep opts now ts frame s) := by
  obtain ⟨h1, h2⟩ := h
  unfold detectorStep
  cases hp : s.previous with
  | none =>
    rw [motion_detector_body_none opts true true true now ts frame s hp]
    exact ⟨h1, h2⟩
  | some prev =>
    rw [motion_detector_body_some opts true true true now ts frame prev s hp]
    unfold detector_compare
    by_cases hc2 : (stabilize opts (mseCode frame prev) s).stabilized = true ∧
        mseCode frame prev > opts.mse_threshold
    · rw [if_pos hc2]
      by_cases hrec : (stabilize opts (mseCode frame prev) s).recording = false
      · rw [if_pos hrec, start_recording_ok]
        constructor
        · show scanOk false ((stabilize opts (mseCode frame prev) s).encoderEvents ++ [true]) =
            some true
          rw [stabilize_encoderEvents, scanOk_snoc, h1]
          rw [stabilize_recording] at hrec
          rw [hrec]
          rfl
        · show (some true : Option Bool) = some true ↔ true = true
          simp
      · rw [if_neg hrec]
        constructor
        · show scanOk false (stabilize opts (mseCode frame prev) s).encoderEvents =
            some (stabilize opts (mseCode frame prev) s).recording
          rw [stabilize_encoderEvents, stabilize_recording]
          exact h1
        · show (stabilize opts (mseCode frame prev) s).ptsWriter = some true ↔
            (stabilize opts (mseCode frame prev) s).recording = true
          rw [stabilize_ptsWriter, stabilize_recording]
          exact h2
    · rw [if_neg hc2]
      by_cases hc3 : (stabilize opts (mseCode frame prev) s).recording = true ∧
          now - (stabilize opts (mseCode frame prev) s).last_activity >
            poocam_config.recording_timeout
      · rw [if_pos hc3]
        have hrecs : s.recording = true := by
          rw [← stabilize_recording opts (mseCode frame prev) s]; exact hc3.1
        have hpw : (stabilize opts (mseCode frame prev) s).ptsWriter = some true := by
          rw [stabilize_ptsWriter]; exact h2.mpr hrecs
        rw [stop_recording_true_of_recording _ hc3.1]
        constructor
        · show scanOk false ((stabilize opts (mseCode frame prev) s).encoderEvents ++ [false]) =
            some false
          rw [stabilize_encoderEvents, scanOk_snoc, h1, hrecs]
          rfl
        · show (if (stabilize opts (mseCode frame prev) s).ptsWriter.isSome then some false
              else (stabilize opts (mseCode frame prev) s).ptsWriter) = some true ↔
            false = true
          rw [hpw]
          simp
      · rw [if_neg hc3]
        constructor
        · show scanOk false (stabilize opts (mseCode frame prev) s).encoderEvents =
            some (stabilize opts (mseCode frame prev) s).recording
          rw [stabilize_encoderEvents, stabilize_recording]
          exact h1
        · show (stabilize opts (mseCode frame prev) s).ptsWriter = some true ↔
            (stabilize opts (mseCode frame prev) s).recording = true
          rw [stabilize_ptsWriter, stabilize_recording]
          exact h2

theorem ctrlInv_runDetector (opts : StartupOptions) (steps : List (ℚ × String × Frame))
    (s : SysState) (h : ctrlInv s) : ctrlInv (runDetector opts steps s) := by
  induction steps generalizing s with
  | nil => exact h
  | cons a rest ih =>
    obtain ⟨now, ts, f⟩ := a
    exact ih (detectorStep opts now ts f s) (ctrlInv_detectorStep opts now ts f s h)

theorem ctrlInv_init : ctrlInv initState := by
  constructor
  · rfl
  · constructor
    · intro hc; exact Option.noConfusion hc
    · intro hc; exact Bool.noConfusion hc

/-! ### Helper lemmas: the stabilized flag is monotone -/

theorem detectorStep_stabilized (opts : StartupOptions) (now : ℚ) (ts : String) (frame : Frame)
    (s : SysState) (h : s.stabilized = true) :
    (detectorStep opts now ts frame s).stabilized = true := by
  unfold detectorStep
  cases hp : s.previous with
  | none =>
    rw [motion_detector_body_none opts true true true now ts frame s hp]
    exact h
  | some prev =>
    rw [motion_detector_body_some opts true true true now ts frame prev s hp]
    unfold detector_compare
    rw [stabilize_of_stabilized opts (mseCode frame prev) s h]
    by_cases hc2 : s.stabilized = true ∧ mseCode frame prev > opts.mse_threshold
    · rw [if_pos hc2]
      by_cases hrec : s.recording = false
      · rw [if_pos hrec, start_recording_ok]
        exact h
      · rw [if_neg hrec]
        exact h
    · rw [if_neg hc2]
      by_cases hc3 : s.recording = true ∧
          now - s.last_activity > poocam_config.recording_timeout
      · rw [if_pos hc3]
        rw [stop_recording_true_of_recording s hc3.1]
        exact h
      · rw [if_neg hc3]
        exact h

theorem runDetector_stabilized (opts : StartupOptions) (steps : List (ℚ × String × Frame))
    (s : SysState) (h : s.stabilized = true) :
    (runDetector opts steps s).stabilized = true := by
  induction steps generalizing s with
  | nil => exact h
  | cons a rest ih =>
    obtain ⟨now, ts, f⟩ := a
    exact ih (detectorStep opts now ts f s) (detectorStep_stabilized opts now ts f s h)

/-! ### Claim C2 -/

/-- C2 counterexample: with the score exactly equal to the configured
threshold (frames `[0,0]` → `[2,2]` give score 4 = threshold 4), a
stabilized, non-recording detector does not transition, does not record
`last_activity = now`, and does not start the encoder — the source
compares with strict `>` (line 229), so the claim's `score == threshold`
case is false. -/
theorem stable_trigger_at_threshold_cex :
    mseCode [2, 2] [0, 0] = cexOpts.mse_threshold ∧
    stableState.stabilized = true ∧ stableState.recording = false ∧
    (detectorStep cexOpts 10 "t" [2, 2] stableState).recording = false ∧
    (detectorStep cexOpts 10 "t" [2, 2] stableState).encoderEvents = [] ∧
    (detectorStep cexOpts 10 "t" [2, 2] stableState).last_activity = 0 := by
  have hm : mseCode [2, 2] [0, 0] = 4 := by norm_num [mseCode, u8sub, u8sq]
  have hstep : detectorStep cexOpts 10 "t" [2, 2] stableState =
      { stableState with previous := some [2, 2] } := by
    unfold detectorStep
    rw [motion_detector_body_some cexOpts true true true 10 "t" [2, 2] [0, 0] stableState rfl]
    unfold detector_compare
    rw [stabilize_of_stabilized cexOpts (mseCode [2, 2] [0, 0]) stableState rfl]
    rw [if_neg, if_neg]
    · rfl
    · rintro ⟨hr, _⟩
      exact Bool.noConfusion hr
    · rintro ⟨_, hgt⟩
      rw [hm] at hgt
      exact absurd hgt (by norm_num [cexOpts])
  exact ⟨by rw [hm]; rfl, rfl, rfl, by rw [hstep]; rfl, by rw [hstep]; rfl, by rw [hstep]; rfl⟩

/-- C2 (amended): from `Stable` (stabilized, not recording) the detector
transitions, records `last_activity = now` and starts the encoder
exactly when the score is strictly greater than the threshold (the
source uses `mse > self.mse_threshold`, not `>=`). -/
theorem stable_trigger_strict (opts : StartupOptions) (now : ℚ) (ts : String)
    (frame prev : Frame) (s : SysState)
    (hprev : s.previous = some prev) (hstab : s.stabilized = true)
    (hrec : s.recording = false) (hscore : mseCode frame prev > opts.mse_threshold) :
    (detectorStep opts now ts frame s).recording = true ∧
    (detectorStep opts now ts frame s).last_activity = now ∧
    (detectorStep opts now ts frame s).encoderEvents = s.encoderEvents ++ [true] ∧
    (detectorStep opts now ts frame s).previous = some frame := by
  unfold detectorStep
  rw [trigger_reduces opts true true true now ts frame prev s hprev hstab hrec hscore,
      start_recording_ok]
  exact ⟨rfl, rfl, rfl, rfl⟩

/-- C2 witness: frames `[0,0]` → `[3,3]` score 9 > threshold 4 from the
stabilized idle state. -/
theorem stable_trigger_strict_witness :
    (detectorStep cexOpts 5 "t" [3, 3] stableState).recording = true ∧
    (detectorStep cexOpts 5 "t" [3, 3] stableState).last_activity = 5 ∧
    (detectorStep cexOpts 5 "t" [3, 3] stableState).encoderEvents =
      stableState.encoderEvents ++ [true] ∧
    (detectorStep cexOpts 5 "t" [3, 3] stableState).previous = some [3, 3] :=
  stable_trigger_strict cexOpts 5 "t" [3, 3] [0, 0] stableState rfl rfl rfl
    (by norm_num [mseCode, u8sub, u8sq, cexOpts])

/-! ### Claim C3 -/

/-- C3: over every execution of the controller — any finite sequence of
detector cycles from the initial state, followed by the shutdown's
`stop_recording` — the encoder start/stop calls strictly alternate in
matched 1:1 pairs beginning with a start (`scanOk` accepts the trace
and ends closed), and the execution ends with no open encoder and no
open timecode writer. -/
theorem encoder_calls_strictly_alternate (opts : StartupOptions)
    (steps : List (ℚ × String × Frame)) :
    scanOk false (closeEvent (runDetector opts steps initState)).encoderEvents = some false ∧
    (closeEvent (runDetector opts steps initState)).recording = false ∧
    (closeEvent (runDetector opts steps initState)).ptsWriter ≠ some true := by
  obtain ⟨h1, h2⟩ := ctrlInv_runDetector opts steps initState ctrlInv_init
  unfold closeEvent
  by_cases hrec : (runDetector opts steps initState).recording = true
  · rw [stop_recording_true_of_recording _ hrec]
    refine ⟨?_, rfl, ?_⟩
    · show scanOk false ((runDetector opts steps initState).encoderEvents ++ [false]) = some false
      rw [scanOk_snoc, h1, hrec]
      rfl
    · show (if (runDetector opts steps initState).ptsWriter.isSome then some false
          else (runDetector opts steps initState).ptsWriter) ≠ some true
      rw [h2.mpr hrec]
      simp
  · have hrec2 : (runDetector opts steps initState).recording = false :=
      Bool.not_eq_true _ ▸ hrec
    rw [stop_recording_idle_eq true _ hrec2]
    refine ⟨?_, hrec2, ?_⟩
    · show scanOk false (runDetector opts steps initState).encoderEvents = some false
      rw [h1, hrec2]
    · show (runDetector opts steps initState).ptsWriter ≠ some true
      intro hc
      exact hrec (h2.mp hc)

/-! ### Claim C6 -/

/-- C6 counterexample: a recording state with an open timecode writer,
where `camera.stop_encoder()` raises: `stop_recording` propagates the
exception with the state unchanged — in particular the writer is still
open, so the close is not guaranteed regardless of the encoder-stop
outcome (there is no `try`/`finally` in lines 145-152). -/
theorem encoder_stop_error_cex :
    recState.recording = true ∧ recState.ptsWriter = some true ∧
    stop_recording false recState = Except.error recState ∧
    (exitState (stop_recording false recState)).ptsWriter = some true := by
  refine ⟨rfl, rfl, stop_recording_err recState rfl, ?_⟩
  rw [stop_recording_err recState rfl]
  rfl

/-- C6 (amended): on `ActivityEnded`/shutdown while recording, the
timecode writer is closed when `camera.stop_encoder()` returns
normally; when it raises, the exception propagates out of
`stop_recording` with the state unchanged and the writer is not
closed. -/
theorem encoder_stop_error_skips_writer_close (s : SysState) (h : s.recording = true) :
    stop_recording false s = Except.error s ∧
    (exitState (stop_recording false s)).ptsWriter = s.ptsWriter ∧
    raised (stop_recording true s) = false ∧
    (exitState (stop_recording true s)).ptsWriter ≠ some true := by
  refine ⟨stop_recording_err s h, ?_, ?_, ?_⟩
  · rw [stop_recording_err s h]
    rfl
  · rw [stop_recording_true_of_recording s h]
    rfl
  · rw [stop_recording_true_of_recording s h]
    show (if s.ptsWriter.isSome then some false else s.ptsWriter) ≠ some true
    by_cases hw : s.ptsWriter.isSome = true
    · rw [if_pos hw]
      simp
    · rw [if_neg hw]
      intro hc
      rw [hc] at hw
      exact hw rfl

/-- C6 witness: the amended statement at the concrete recording state. -/
theorem encoder_stop_error_skips_writer_close_witness :
    stop_recording false recState = Except.error recState ∧
    (exitState (stop_recording false recState)).ptsWriter = recState.ptsWriter ∧
    raised (stop_recording true recState) = false ∧
    (exitState (stop_recording true recState)).ptsWriter ≠ some true :=
  encoder_stop_error_skips_writer_close recState rfl

/-! ### Claim C8 -/

/-- C8 counterexample: `stop_recording` in the idle state returns
normally with the state unchanged — the impossible signal is silently
ignored (guard `if self._recording:` at line 146), not treated as a
fatal logged invariant violation. -/
theorem idle_stop_ignored_cex :
    initState.recording = false ∧
    stop_recording true initState = Except.ok initState ∧
    raised (stop_recording true initState) = false := by
  refine ⟨rfl, stop_recording_idle_eq true initState rfl, ?_⟩
  rw [stop_recording_idle_eq true initState rfl]
  rfl

/-- C8 (amended): a stop request while not recording is a silent no-op:
`stop_recording` returns normally and leaves the state bit-for-bit
unchanged, whatever the encoder-stop outcome would have been. -/
theorem idle_stop_is_silent_noop (stopEncOk : Bool) (s : SysState) (h : s.recording = false) :
    stop_recording stopEncOk s = Except.ok s :=
  stop_recording_idle_eq stopEncOk s h

/-- C8 witness. -/
theorem idle_stop_is_silent_noop_witness :
    stop_recording false stableState = Except.ok stableState :=
  idle_stop_is_silent_noop false stableState rfl

/-! ### Claim C7 -/

/-- C7 counterexample: a stabilized idle detector sees score 9 > 4, so
`start_recording` runs; `io.open` of the timecode writer fails.  The
exception propagates (there is no handler in `start_recording` or
`motion_detector`), the `_recording` flag — set on the first line of
`start_recording` — is left `true` (not Idle, a recording is considered
open), and the detector loop dies with the exception instead of
remaining ready for the next signal. -/
theorem start_failure_not_recovered_cex :
    raised (motion_detector_body cexOpts false true true 1 "t" [3] stableState1) = true ∧
    (exitState (motion_detector_body cexOpts false true true 1 "t" [3] stableState1)).recording =
      true ∧
    raised (runDetectorF cexOpts false true true [(1, "t", [3]), (2, "u", [3])] stableState1) =
      true := by
  have hb : motion_detector_body cexOpts false true true 1 "t" [3] stableState1 =
      Except.error { stableState1 with recording := true, current_filename := some "t" } := by
    rw [trigger_reduces cexOpts false true true 1 "t" [3] [0] stableState1 rfl rfl rfl
        (by norm_num [mseCode, u8sub, u8sq, cexOpts]),
      start_recording_open_fails]
    rfl
  refine ⟨by rw [hb]; rfl, by rw [hb]; rfl, ?_⟩
  show raised (match motion_detector_body cexOpts false true true 1 "t" [3] stableState1 with
    | Except.error e => Except.error e
    | Except.ok s2 => runDetectorF cexOpts false true true [(2, "u", [3])] s2) = true
  rw [hb]
  rfl

/-- C7 (amended): when opening the timecode writer fails during
`ActivityStarted` handling, the error is not contained: the exception
escapes `start_recording` with `_recording` already set to `true` (the
controller does not remain in Idle and a recording is considered open),
and the detector loop terminates at that iteration, so no later
`ActivityStarted` gets a fresh attempt. -/
theorem start_failure_kills_detector (opts : StartupOptions) (now : ℚ) (ts : String)
    (frame prev : Frame) (s : SysState) (rest : List (ℚ × String × Frame))
    (hprev : s.previous = some prev) (hstab : s.stabilized = true)
    (hrec : s.recording = false) (hscore : mseCode frame prev > opts.mse_threshold) :
    motion_detector_body opts false true true now ts frame s =
      Except.error { s with recording := true, current_filename := some ts } ∧
    runDetectorF opts false true true ((now, ts, frame) :: rest) s =
      Except.error { s with recording := true, current_filename := some ts } := by
  have hb : motion_detector_body opts false true true now ts frame s =
      Except.error { s with recording := true, current_filename := some ts } := by
    rw [trigger_reduces opts false true true now ts frame prev s hprev hstab hrec hscore,
      start_recording_open_fails]
    rfl
  refine ⟨hb, ?_⟩
  show (match motion_detector_body opts false true true now ts frame s with
    | Except.error e => Except.error e
    | Except.ok s2 => runDetectorF opts false true true rest s2) =
      Except.error { s with recording := true, current_filename := some ts }
  rw [hb]

/-- C7 witness. -/
theorem start_failure_kills_detector_witness :
    motion_detector_body cexOpts false true true 7 "w" [4] stableState1 =
      Except.error { stableState1 with recording := true, current_filename := some "w" } ∧
    runDetectorF cexOpts false true true [(7, "w", [4]), (8, "x", [0])] stableState1 =
      Except.error { stableState1 with recording := true, current_filename := some "w" } :=
  start_failure_kills_detector cexOpts 7 "w" [4] [0] stableState1 [(8, "x", [0])] rfl rfl rfl
    (by norm_num [mseCode, u8sub, u8sq, cexOpts])

/-! ### Claim C9 -/

/-- C9 counterexample: the stop decision is controlled by the hardcoded
`poocam_config["recording_timeout"] = 3`, not by any startup
configuration input: under two startup configurations differing in
every field (directories, threshold, screen timeout, verbosity, file
logging), a recording with `now - last_activity = 5/2` does not stop —
even though `5/2` exceeds `optsA.screen_timeout = 2`, the only
seconds-valued startup input — while `now - last_activity = 7/2 > 3`
stops under both. -/
theorem timeout_not_configurable_cex :
    poocam_config.recording_timeout = 3 ∧
    optsA.screen_timeout = 2 ∧
    recState.last_activity = 0 ∧
    (detectorStep optsA (5 / 2) "t" [1] recState).recording = true ∧
    (detectorStep optsB (5 / 2) "t" [1] recState).recording = true ∧
    (detectorStep optsA (7 / 2) "t" [1] recState).recording = false ∧
    (detectorStep optsB (7 / 2) "t" [1] recState).recording = false := by
  have hlowA : mseCode [1] [0] < optsA.mse_threshold := by
    norm_num [mseCode, u8sub, u8sq, optsA]
  have hlowB : mseCode [1] [0] < optsB.mse_threshold := by
    norm_num [mseCode, u8sub, u8sq, optsB]
  have hA1 := quiet_recording_iff optsA (5 / 2) "t" [1] [0] recState rfl rfl hlowA
  have hB1 := quiet_recording_iff optsB (5 / 2) "t" [1] [0] recState rfl rfl hlowB
  have hA2 := quiet_recording_iff optsA (7 / 2) "t" [1] [0] recState rfl rfl hlowA
  have hB2 := quiet_recording_iff optsB (7 / 2) "t" [1] [0] recState rfl rfl hlowB
  have hno : ¬((5 / 2 : ℚ) - recState.last_activity > poocam_config.recording_timeout) := by
    show ¬((5 / 2 : ℚ) - 0 > 3)
    norm_num
  have hyes : (7 / 2 : ℚ) - recState.last_activity > poocam_config.recording_timeout := by
    show (7 / 2 : ℚ) - 0 > 3
    norm_num
  refine ⟨rfl, rfl, rfl, ?_, ?_, hA2.mpr hyes, hB2.mpr hyes⟩
  · cases hv : (detectorStep optsA (5 / 2) "t" [1] recState).recording
    · exact absurd (hA1.mp hv) hno
    · rfl
  · cases hv : (detectorStep optsB (5 / 2) "t" [1] recState).recording
    · exact absurd (hB1.mp hv) hno
    · rfl

/-- C9 (amended): the activity threshold is a startup input
(`--mse-threshold`), but the inactivity timeout is the hardcoded
constant `poocam_config["recording_timeout"] = 3`; for every startup
configuration, a recording detector seeing a sub-threshold score ends
the recording exactly when `now - last_activity` exceeds 3. -/
theorem inactivity_timeout_hardcoded (opts : StartupOptions) (now : ℚ) (ts : String)
    (frame prev : Frame) (s : SysState)
    (hprev : s.previous = some prev) (hrec : s.recording = true)
    (hlow : mseCode frame prev < opts.mse_threshold) :
    poocam_config.recording_timeout = 3 ∧
    ((detectorStep opts now ts frame s).recording = false ↔
      now - s.last_activity > poocam_config.recording_timeout) :=
  ⟨rfl, quiet_recording_iff opts now ts frame prev s hprev hrec hlow⟩

/-- C9 witness. -/
theorem inactivity_timeout_hardcoded_witness :
    poocam_config.recording_timeout = 3 ∧
    ((detectorStep optsA 4 "t" [1] recState).recording = false ↔
      (4 : ℚ) - recState.last_activity > poocam_config.recording_timeout) :=
  inactivity_timeout_hardcoded optsA 4 "t" [1] [0] recState rfl rfl
    (by norm_num [mseCode, u8sub, u8sq, optsA])

/-! ### Claim C10 -/

/-- C10: the stabilized flag is monotone: once the detector has left
`Unstable` (`stabilized = true`), no later sequence of frames — however
large or long-lasting their scores — ever resets it; after activity
ends the detector re-arms to `Stable` only (nothing in the loop body
ever writes `stabilized = False`). -/
theorem stabilized_flag_never_reset (opts : StartupOptions)
    (steps : List (ℚ × String × Frame)) (s : SysState) (h : s.stabilized = true) :
    (runDetector opts steps s).stabilized = true :=
  runDetector_stabilized opts steps s h

/-- C10 witness: two frames of score 160000-ish and a quiet frame do
not reset the flag. -/
theorem stabilized_flag_never_reset_witness :
    (runDetector cexOpts [(0, "a", [200]), (1, "b", [0]), (2, "c", [0])]
      stableState).stabilized = true :=
  stabilized_flag_never_reset cexOpts [(0, "a", [200]), (1, "b", [0]), (2, "c", [0])]
    stableState rfl

/-! ### Helper lemmas: the muxer small-step system -/

theorem runMux_nil (env : MuxEnv) (s : MuxState) : runMux env [] s = s := rfl

theorem runMux_cons (env : MuxEnv) (a : MuxAction) (rest : List MuxAction) (s : MuxState) :
    runMux env (a :: rest) s = runMux env rest (muxStep env a s) := rfl

theorem runMux_append (env : MuxEnv) (σ τ : List MuxAction) (s : MuxState) :
    runMux env (σ ++ τ) s = runMux env τ (runMux env σ s) := by
  induction σ generalizing s with
  | nil => rfl
  | cons a rest ih =>
    rw [List.cons_append, runMux_cons, runMux_cons]
    exact ih (muxStep env a s)

theorem muxStep_worker_exited (env : MuxEnv) (s : MuxState) (h : s.exited = true) :
    muxStep env MuxAction.workerStep s = s := by
  unfold muxStep
  rw [if_pos h]

theorem muxStep_worker_done (env : MuxEnv) (s : MuxState) (hex : s.exited = false)
    (hrun : s.run = false) (hq : s.queue = []) :
    muxStep env MuxAction.workerStep s = { s with exited := true } := by
  unfold muxStep
  rw [if_neg (by rw [hex]; exact Bool.noConfusion), if_pos ⟨hrun, hq⟩]

theorem muxStep_worker_timeout (env : MuxEnv) (s : MuxState) (hex : s.exited = false)
    (hrun : s.run = true) (hq : s.queue = []) :
    muxStep env MuxAction.workerStep s = s := by
  unfold muxStep
  rw [if_neg (by rw [hex]; exact Bool.noConfusion),
    if_neg (by rintro ⟨hr, _⟩; rw [hrun] at hr; exact Bool.noConfusion hr), hq]

theorem muxStep_worker_pop (env : MuxEnv) (s : MuxState) (j : String) (tl : List String)
    (hex : s.exited = false) (hq : s.queue = j :: tl) (hj : j ≠ "") :
    muxStep env MuxAction.workerStep s =
      { s with queue := tl
               finalized := s.finalized ++ [j]
               fsTrace := s.fsTrace ++ processJob env j } := by
  unfold muxStep
  rw [if_neg (by rw [hex]; exact Bool.noConfusion),
    if_neg (by rintro ⟨_, hqe⟩; rw [hq] at hqe; exact List.noConfusion hqe), hq]
  show (if j ≠ "" then
      { s with queue := tl
               finalized := s.finalized ++ [j]
               fsTrace := s.fsTrace ++ processJob env j }
    else { s with queue := tl }) =
    { s with queue := tl
             finalized := s.finalized ++ [j]
             fsTrace := s.fsTrace ++ processJob env j }
  rw [if_pos hj]

theorem muxStep_submit (env : MuxEnv) (j : String) (s : MuxState) :
    muxStep env (MuxAction.submit j) s = { s with queue := s.queue ++ [j] } := rfl

theorem muxStep_shutdown (env : MuxEnv) (s : MuxState) :
    muxStep env MuxAction.shutdown s = { s with run := false } := rfl

theorem muxStep_workerStep_run (env : MuxEnv) (s : MuxState) :
    (muxStep env MuxAction.workerStep s).run = s.run := by
  show (if s.exited = true then s
    else if s.run = false ∧ s.queue = [] then { s with exited := true }
    else match s.queue with
      | [] => s
      | j :: tl =>
        if j ≠ "" then
          { s with queue := tl
                   finalized := s.finalized ++ [j]
                   fsTrace := s.fsTrace ++ processJob env j }
        else { s with queue := tl }).run = s.run
  split
  · rfl
  · split
    · rfl
    · split
      · rfl
      · split
        · rfl
        · rfl

theorem muxStep_run_false (env : MuxEnv) (a : MuxAction) (s : MuxState) (h : s.run = false) :
    (muxStep env a s).run = false := by
  cases a with
  | submit j => exact h
  | shutdown => rfl
  | workerStep => rw [muxStep_workerStep_run]; exact h

theorem runMux_run_false (env : MuxEnv) (σ : List MuxAction) (s : MuxState)
    (h : s.run = false) : (runMux env σ s).run = false := by
  induction σ generalizing s with
  | nil => exact h
  | cons a rest ih =>
    rw [runMux_cons]
    exact ih (muxStep env a s) (muxStep_run_false env a s h)

theorem runMux_shutdown_run (env : MuxEnv) (σ : List MuxAction) (s : MuxState)
    (h : MuxAction.shutdown ∈ σ) : (runMux env σ s).run = false := by
  induction σ generalizing s with
  | nil => cases h
  | cons a rest ih =>
    rw [runMux_cons]
    by_cases ha : MuxAction.shutdown ∈ rest
    · exact ih (muxStep env a s) ha
    · have heq : a = MuxAction.shutdown := by
        rcases List.mem_cons.mp h with heq | hmem
        · exact heq.symm
        · exact absurd hmem ha
      subst heq
      exact runMux_run_false env rest _ rfl

theorem mem_submitsOf (σ : List MuxAction) (j : String) (h : MuxAction.submit j ∈ σ) :
    j ∈ submitsOf σ := by
  induction σ with
  | nil => cases h
  | cons a rest ih =>
    cases a with
    | submit x =>
      rcases List.mem_cons.mp h with heq | hmem
      · rw [show x = j from ((MuxAction.submit.injEq j x).mp heq).symm]
        exact List.mem_cons_self j (submitsOf rest)
      · exact List.mem_cons_of_mem x (ih hmem)
    | shutdown =>
      rcases List.mem_cons.mp h with heq | hmem
      · exact MuxAction.noConfusion heq
      · exact ih hmem
    | workerStep =>
      rcases List.mem_cons.mp h with heq | hmem
      · exact MuxAction.noConfusion heq
      · exact ih hmem

theorem producerOrdered_of_all (σ : List MuxAction)
    (h : σ.all (fun a => !(isSubmit a)) = true) : producerOrdered σ = true := by
  induction σ with
  | nil => rfl
  | cons a rest ih =>
    rw [List.all_cons, Bool.and_eq_true] at h
    cases a with
    | submit j => exact absurd h.1 (by simp [isSubmit])
    | shutdown => exact h.2
    | workerStep => exact ih h.2

theorem producerOrdered_append (σ τ : List MuxAction)
    (h1 : producerOrdered σ = true) (h2 : τ.all (fun a => !(isSubmit a)) = true) :
    producerOrdered (σ ++ τ) = true := by
  induction σ with
  | nil => exact producerOrdered_of_all τ h2
  | cons a rest ih =>
    cases a with
    | submit j => exact ih h1
    | shutdown =>
      show ((rest ++ τ).all (fun a => !(isSubmit a))) = true
      rw [List.all_append, Bool.and_eq_true]
      exact ⟨h1, h2⟩
    | workerStep => exact ih h1

theorem replicate_worker_all (n : Nat) :
    (List.replicate n MuxAction.workerStep).all (fun a => !(isSubmit a)) = true := by
  induction n with
  | zero => rfl
  | succ n ih =>
    rw [List.replicate_succ, List.all_cons, Bool.and_eq_true]
    exact ⟨rfl, ih⟩

theorem submitsOf_append (σ τ : List MuxAction) :
    submitsOf (σ ++ τ) = submitsOf σ ++ submitsOf τ := by
  induction σ with
  | nil => rfl
  | cons a rest ih =>
    cases a with
    | submit j =>
      show j :: submitsOf (rest ++ τ) = j :: (submitsOf rest ++ submitsOf τ)
      rw [ih]
    | shutdown => exact ih
    | workerStep => exact ih

theorem submitsOf_replicate_worker (n : Nat) :
    submitsOf (List.replicate n MuxAction.workerStep) = [] := by
  induction n with
  | zero => rfl
  | succ n ih =>
    rw [List.replicate_succ]
    exact ih

/-- The central worker invariant: over any producer-ordered
interleaving whose submitted names are non-empty, jobs are conserved
(`finalized ++ queue` accumulates exactly the submissions), the worker
returns only having observed `run = false` and an empty queue, and
queued names stay non-empty. -/
theorem runMux_inv (env : MuxEnv) (σ : List MuxAction) :
    ∀ (s : MuxState),
      producerOrdered σ = true →
      (s.run = false → σ.all (fun a => !(isSubmit a)) = true) →
      (s.exited = true → s.run = false ∧ s.queue = []) →
      (∀ j, j ∈ s.queue → j ≠ "") →
      (∀ j, MuxAction.submit j ∈ σ → j ≠ "") →
      (runMux env σ s).finalized ++ (runMux env σ s).queue =
          s.finalized ++ s.queue ++ submitsOf σ ∧
      ((runMux env σ s).exited = true →
          (runMux env σ s).run = false ∧ (runMux env σ s).queue = []) ∧
      (∀ j, j ∈ (runMux env σ s).queue → j ≠ "") := by
  induction σ with
  | nil =>
    intro s _ _ h3 h4 _
    refine ⟨?_, h3, h4⟩
    show s.finalized ++ s.queue = s.finalized ++ s.queue ++ ([] : List String)
    rw [List.append_nil]
  | cons a rest ih =>
    intro s h1 h2 h3 h4 h5
    cases a with
    | submit j =>
      have hrun : s.run = true := by
        cases hr : s.run
        · have := h2 hr
          rw [List.all_cons, Bool.and_eq_true] at this
          exact absurd this.1 (by simp [isSubmit])
        · rfl
      rw [runMux_cons, muxStep_submit]
      have hj : j ≠ "" := h5 j (List.mem_cons_self _ _)
      have := ih { s with queue := s.queue ++ [j] } h1
        (by intro hr; rw [hrun] at hr; exact Bool.noConfusion hr)
        (by intro he; exact absurd ((h3 he).1) (by rw [hrun]; exact Bool.noConfusion))
        (by intro x hx
            rcases List.mem_append.mp hx with hx | hx
            · exact h4 x hx
            · rw [List.mem_singleton] at hx; rw [hx]; exact hj)
        (by intro x hx; exact h5 x (List.mem_cons_of_mem _ hx))
      refine ⟨?_, this.2.1, this.2.2⟩
      rw [this.1]
      show s.finalized ++ (s.queue ++ [j]) ++ submitsOf rest =
        s.finalized ++ s.queue ++ (j :: submitsOf rest)
      rw [List.append_assoc s.finalized, List.append_assoc s.finalized,
        List.append_assoc s.queue]
      rfl
    | shutdown =>
      have hall : rest.all (fun a => !(isSubmit a)) = true := h1
      rw [runMux_cons, muxStep_shutdown]
      have := ih { s with run := false } (producerOrdered_of_all rest hall)
        (fun _ => hall)
        (by intro he; exact ⟨rfl, (h3 he).2⟩)
        h4
        (by intro x hx; exact h5 x (List.mem_cons_of_mem _ hx))
      exact ⟨this.1, this.2.1, this.2.2⟩
    | workerStep =>
      rw [runMux_cons]
      have h5r : ∀ j, MuxAction.submit j ∈ rest → j ≠ "" :=
        fun x hx => h5 x (List.mem_cons_of_mem _ hx)
      have h2r : (s.run = false → rest.all (fun a => !(isSubmit a)) = true) := by
        intro hr
        have := h2 hr
        rw [List.all_cons, Bool.and_eq_true] at this
        exact this.2
      cases hex : s.exited with
      | true =>
        rw [muxStep_worker_exited env s hex]
        exact ih s h1 h2r h3 h4 h5r
      | false =>
        by_cases hcond : s.run = false ∧ s.queue = []
        · rw [muxStep_worker_done env s hex hcond.1 hcond.2]
          have := ih { s with exited := true } h1
            (fun _ => h2r hcond.1)
            (fun _ => ⟨hcond.1, hcond.2⟩)
            h4 h5r
          exact ⟨this.1, this.2.1, this.2.2⟩
        · cases hq : s.queue with
          | nil =>
            have hrun : s.run = true := by
              cases hr : s.run
              · exact absurd ⟨hr, hq⟩ hcond
              · rfl
            rw [muxStep_worker_timeout env s hex hrun hq]
            have hres := ih s h1 h2r h3 h4 h5r
            rw [hq] at hres
            exact hres
          | cons j tl =>
            have hj : j ≠ "" := h4 j (by rw [hq]; exact List.mem_cons_self _ _)
            rw [muxStep_worker_pop env s j tl hex hq hj]
            have := ih { s with queue := tl
                                finalized := s.finalized ++ [j]
                                fsTrace := s.fsTrace ++ processJob env j } h1
              h2r
              (by intro he; exact absurd he (by rw [hex]; exact Bool.noConfusion))
              (by intro x hx; exact h4 x (by rw [hq]; exact List.mem_cons_of_mem _ hx))
              h5r
            refine ⟨?_, this.2.1, this.2.2⟩
            rw [this.1]
            show s.finalized ++ [j] ++ tl ++ submitsOf rest =
              s.finalized ++ (j :: tl) ++ submitsOf rest
            rw [List.append_assoc s.finalized]
            rfl

/-- Worker steps keep the worker exited. -/
theorem runMux_worker_exited_stable (env : MuxEnv) (k : Nat) (s : MuxState)
    (h : s.exited = true) :
    (runMux env (List.replicate k MuxAction.workerStep) s).exited = true := by
  induction k generalizing s with
  | zero => exact h
  | succ k ih =>
    rw [List.replicate_succ, runMux_cons, muxStep_worker_exited env s h]
    exact ih s h

/-- After shutdown, at most `queue.length + 1` further worker
iterations make the worker observe `run = false` with an empty queue
and return. -/
theorem runMux_worker_progress (env : MuxEnv) :
    ∀ (k : Nat) (s : MuxState),
      s.run = false → s.queue.length ≤ k → (∀ j, j ∈ s.queue → j ≠ "") →
      (runMux env (List.replicate (k + 1) MuxAction.workerStep) s).exited = true := by
  intro k
  induction k with
  | zero =>
    intro s hrun hlen hnames
    have hq : s.queue = [] := List.eq_nil_of_length_eq_zero (Nat.le_zero.mp hlen)
    rw [List.replicate_succ, runMux_cons]
    cases hex : s.exited with
    | true => rw [muxStep_worker_exited env s hex]; exact hex
    | false => rw [muxStep_worker_done env s hex hrun hq]; rfl
  | succ k ih =>
    intro s hrun hlen hnames
    rw [List.replicate_succ, runMux_cons]
    cases hex : s.exited with
    | true =>
      rw [muxStep_worker_exited env s hex]
      exact runMux_worker_exited_stable env (k + 1) s hex
    | false =>
      cases hq : s.queue with
      | nil =>
        rw [muxStep_worker_done env s hex hrun hq]
        exact runMux_worker_exited_stable env (k + 1) _ rfl
      | cons j tl =>
        have hj : j ≠ "" := hnames j (by rw [hq]; exact List.mem_cons_self _ _)
        rw [muxStep_worker_pop env s j tl hex hq hj]
        refine ih _ hrun ?_ ?_
        · show tl.length ≤ k
          have : (j :: tl).length ≤ k + 1 := hq ▸ hlen
          exact Nat.succ_le_succ_iff.mp this
        · intro x hx
          exact hnames x (by rw [hq]; exact List.mem_cons_of_mem _ hx)

/-! ### Claim C4 -/

/-- C4: for every producer-ordered interleaving `σ` of N submissions
(all with the non-empty timestamp-derived names the controller
produces), a shutdown, and arbitrarily interleaved worker iterations:
whenever the worker has returned it has observed `run = false` and an
empty queue and has performed exactly the N finalization attempts, one
per submitted job in order; moreover at most `queue.length + 1` worker
iterations after the end of `σ` the worker does return, again having
finalized exactly the N submitted jobs — no already-submitted job is
dropped. -/
theorem muxer_drains_all_jobs_before_exit (env : MuxEnv) (σ : List MuxAction)
    (hord : producerOrdered σ = true)
    (hne : (submitsOf σ).all (fun j => j != "") = true)
    (hsd : MuxAction.shutdown ∈ σ) :
    ((runMux env σ muxInit).exited = true →
        (runMux env σ muxInit).run = false ∧ (runMux env σ muxInit).queue = [] ∧
        (runMux env σ muxInit).finalized = submitsOf σ) ∧
    (runMux env (σ ++ List.replicate ((runMux env σ muxInit).queue.length + 1)
        MuxAction.workerStep) muxInit).exited = true ∧
    (runMux env (σ ++ List.replicate ((runMux env σ muxInit).queue.length + 1)
        MuxAction.workerStep) muxInit).finalized = submitsOf σ := by
  have hnames : ∀ j, MuxAction.submit j ∈ σ → j ≠ "" := by
    intro j hj
    have hmem := mem_submitsOf σ j hj
    have hbne := List.all_eq_true.mp hne j hmem
    intro hc
    rw [hc] at hbne
    exact Bool.noConfusion ((bne_self_eq_false "").symm.trans hbne)
  have hinv := runMux_inv env σ muxInit hord
    (fun hr => absurd hr (fun hc => Bool.noConfusion hc))
    (fun he => absurd he (fun hc => Bool.noConfusion hc))
    (fun j hj => absurd hj (List.not_mem_nil j))
    hnames
  have hjobs : (runMux env σ muxInit).finalized ++ (runMux env σ muxInit).queue =
      submitsOf σ := by
    have h := hinv.1
    rw [show muxInit.finalized = [] from rfl, show muxInit.queue = [] from rfl,
      List.nil_append, List.nil_append] at h
    exact h
  have part1 : (runMux env σ muxInit).exited = true →
      (runMux env σ muxInit).run = false ∧ (runMux env σ muxInit).queue = [] ∧
      (runMux env σ muxInit).finalized = submitsOf σ := by
    intro hex
    obtain ⟨hr, hq⟩ := hinv.2.1 hex
    refine ⟨hr, hq, ?_⟩
    rw [hq, List.append_nil] at hjobs
    exact hjobs
  have hrun : (runMux env σ muxInit).run = false := runMux_shutdown_run env σ muxInit hsd
  have part2 : (runMux env (σ ++ List.replicate ((runMux env σ muxInit).queue.length + 1)
      MuxAction.workerStep) muxInit).exited = true := by
    rw [runMux_append]
    exact runMux_worker_progress env ((runMux env σ muxInit).queue.length)
      (runMux env σ muxInit) hrun (Nat.le_refl _) hinv.2.2
  refine ⟨part1, part2, ?_⟩
  have hord2 : producerOrdered (σ ++ List.replicate
      ((runMux env σ muxInit).queue.length + 1) MuxAction.workerStep) = true :=
    producerOrdered_append σ _ hord (replicate_worker_all _)
  have hnames2 : ∀ j, MuxAction.submit j ∈
      σ ++ List.replicate ((runMux env σ muxInit).queue.length + 1) MuxAction.workerStep →
      j ≠ "" := by
    intro j hj
    rcases List.mem_append.mp hj with hj | hj
    · exact hnames j hj
    · exact absurd (List.eq_of_mem_replicate hj) (fun hc => MuxAction.noConfusion hc)
  have hinv2 := runMux_inv env
    (σ ++ List.replicate ((runMux env σ muxInit).queue.length + 1) MuxAction.workerStep)
    muxInit hord2
    (fun hr => absurd hr (fun hc => Bool.noConfusion hc))
    (fun he => absurd he (fun hc => Bool.noConfusion hc))
    (fun j hj => absurd hj (List.not_mem_nil j))
    hnames2
  obtain ⟨hr2, hq2⟩ := hinv2.2.1 part2
  have hjobs2 := hinv2.1
  rw [show muxInit.finalized = [] from rfl, show muxInit.queue = [] from rfl,
    List.nil_append, List.nil_append, hq2, List.append_nil,
    submitsOf_append, submitsOf_replicate_worker, List.append_nil] at hjobs2
  exact hjobs2

/-- C4 witness: the concrete schedule submit `"a"`, worker iteration,
submit `"b"`, shutdown finalizes exactly `["a", "b"]`. -/
theorem muxer_drains_all_jobs_before_exit_witness :
    submitsOf sampleSchedule = ["a", "b"] ∧
    (runMux envOk (sampleSchedule ++ List.replicate
        ((runMux envOk sampleSchedule muxInit).queue.length + 1)
        MuxAction.workerStep) muxInit).finalized = ["a", "b"] := by
  refine ⟨by decide, ?_⟩
  have h := (muxer_drains_all_jobs_before_exit envOk sampleSchedule (by decide) (by decide)
    (by decide)).2.2
  rw [h]
  decide

/-! ### Claim C5 -/

/-- C5: when `mkvmerge` reports a non-zero exit status for the job at
the head of the queue, the worker's iteration performs only the mux
invocation — no `os.remove` of the `.h264` or `.txt` file and no
`os.rename` — and leaves the worker running with the next job at the
head of the queue (the `continue` at line 255); the failed job cannot
block or crash the worker. -/
theorem mux_failure_preserves_sources (env : MuxEnv) (j : String) (tl : List String)
    (s : MuxState) (hex : s.exited = false) (hq : s.queue = j :: tl)
    (hfail : env.muxExit j ≠ 0) (hj : j ≠ "") :
    muxStep env MuxAction.workerStep s =
      { s with queue := tl
               finalized := s.finalized ++ [j]
               fsTrace := s.fsTrace ++ [FsOp.muxCall j] } ∧
    (∀ op, op ∈ processJob env j → op = FsOp.muxCall j) := by
  have hpj : processJob env j = [FsOp.muxCall j] := by
    unfold processJob
    rw [if_pos hfail]
  constructor
  · rw [muxStep_worker_pop env s j tl hex hq hj, hpj]
  · intro op hop
    rw [hpj, List.mem_singleton] at hop
    exact hop

/-- C5 witness: job `"a"` fails to mux; only the mux call is traced and
`"b"` is left at the head of the queue with the worker still running. -/
theorem mux_failure_preserves_sources_witness :
    muxStep envFail MuxAction.workerStep muxS =
      { muxS with queue := ["b"]
                  finalized := muxS.finalized ++ ["a"]
                  fsTrace := muxS.fsTrace ++ [FsOp.muxCall "a"] } ∧
    (∀ op, op ∈ processJob envFail "a" → op = FsOp.muxCall "a") :=
  mux_failure_preserves_sources envFail "a" ["b"] muxS rfl rfl (by decide) (by decide)

end Poocam
